import Mathlib

/-!
Verification of the tool-call orchestration engine of the MCP-example
repository against its specification.

The development shallowly embeds the orchestration logic of
`src/client.py` (plan extraction, placeholder resolution, default-argument
injection, sequential plan execution) and of `src/fastmcp_sse_client.py`
(single-tool-call reply handling and the iterative chat loop).  External
collaborators (the remote tool host and the language model) are modelled
as function parameters; fallible Python code is modelled with explicit
error values.
-/

set_option maxHeartbeats 1000000

namespace MCPSpec

/-- Whitespace characters stripped by Python's `str.strip()` and matched by
the regex class in this code base (ASCII subset; the inputs verified here
contain no exotic unicode whitespace). -/
def isPySpace (c : Char) : Bool :=
  c = ' ' || c = '\t' || c = '\n' || c = '\r' || c = '\x0b' || c = '\x0c'

/-- Whitespace accepted between JSON tokens by `json.loads`. -/
def jsonWsChar (c : Char) : Bool :=
  c = ' ' || c = '\t' || c = '\n' || c = '\r'

/-- Python `s.strip(chars)` on character lists: remove any character of
`cs` from both ends. -/
def pyStripCharsL (cs : List Char) (l : List Char) : List Char :=
  ((l.dropWhile (fun c => cs.contains c)).reverse.dropWhile
    (fun c => cs.contains c)).reverse

/-- Python `s.strip(chars)`. -/
def pyStripChars (chars : String) (s : String) : String :=
  String.mk (pyStripCharsL chars.toList s.toList)

/-- Python `s.strip()` (whitespace strip). -/
def pyStrip (s : String) : String :=
  String.mk (pyStripCharsL [' ', '\t', '\n', '\r', '\x0b', '\x0c'] s.toList)

/-- Python `s.startswith(p)`. -/
def pyStartsWith (p s : String) : Bool :=
  p.toList.isPrefixOf s.toList

/-- Python `s.endswith(p)`. -/
def pyEndsWith (p s : String) : Bool :=
  p.toList.isSuffixOf s.toList

/-- Skip JSON inter-token whitespace. -/
def skipWs (l : List Char) : List Char :=
  l.dropWhile jsonWsChar

/-- JSON values as produced by Python's `json.loads`: objects keep their
key insertion order, duplicate keys are overwritten in place (Python dict
semantics). -/
inductive JValue where
  | null : JValue
  | bool : Bool → JValue
  | num : Int → JValue
  | str : String → JValue
  | arr : List JValue → JValue
  | obj : List (String × JValue) → JValue
  /-- A Python float: a JSON number with a fraction or exponent part, or
  one of Python's `NaN`/`Infinity`/`-Infinity` extensions.  It is carried
  as its literal text: the embedded code paths depend only on the value
  being a non-container scalar, never on its numeric magnitude. -/
  | flt : String → JValue
deriving Repr

mutual

/-- Decidable equality on JSON values (the nested inductive prevents
automatic derivation). -/
def jvDecEq : (a b : JValue) → Decidable (a = b)
  | JValue.null, JValue.null => isTrue rfl
  | JValue.null, JValue.bool _ => isFalse (fun h => JValue.noConfusion h)
  | JValue.null, JValue.num _ => isFalse (fun h => JValue.noConfusion h)
  | JValue.null, JValue.str _ => isFalse (fun h => JValue.noConfusion h)
  | JValue.null, JValue.arr _ => isFalse (fun h => JValue.noConfusion h)
  | JValue.null, JValue.obj _ => isFalse (fun h => JValue.noConfusion h)
  | JValue.null, JValue.flt _ => isFalse (fun h => JValue.noConfusion h)
  | JValue.bool _, JValue.null => isFalse (fun h => JValue.noConfusion h)
  | JValue.bool a, JValue.bool b =>
    match decEq a b with
    | isTrue h => isTrue (congrArg JValue.bool h)
    | isFalse n => isFalse (fun h => n (JValue.bool.inj h))
  | JValue.bool _, JValue.num _ => isFalse (fun h => JValue.noConfusion h)
  | JValue.bool _, JValue.str _ => isFalse (fun h => JValue.noConfusion h)
  | JValue.bool _, JValue.arr _ => isFalse (fun h => JValue.noConfusion h)
  | JValue.bool _, JValue.obj _ => isFalse (fun h => JValue.noConfusion h)
  | JValue.bool _, JValue.flt _ => isFalse (fun h => JValue.noConfusion h)
  | JValue.num _, JValue.null => isFalse (fun h => JValue.noConfusion h)
  | JValue.num _, JValue.bool _ => isFalse (fun h => JValue.noConfusion h)
  | JValue.num a, JValue.num b =>
    match decEq a b with
    | isTrue h => isTrue (congrArg JValue.num h)
    | isFalse n => isFalse (fun h => n (JValue.num.inj h))
  | JValue.num _, JValue.str _ => isFalse (fun h => JValue.noConfusion h)
  | JValue.num _, JValue.arr _ => isFalse (fun h => JValue.noConfusion h)
  | JValue.num _, JValue.obj _ => isFalse (fun h => JValue.noConfusion h)
  | JValue.num _, JValue.flt _ => isFalse (fun h => JValue.noConfusion h)
  | JValue.str _, JValue.null => isFalse (fun h => JValue.noConfusion h)
  | JValue.str _, JValue.bool _ => isFalse (fun h => JValue.noConfusion h)
  | JValue.str _, JValue.num _ => isFalse (fun h => JValue.noConfusion h)
  | JValue.str a, JValue.str b =>
    match decEq a b with
    | isTrue h => isTrue (congrArg JValue.str h)
    | isFalse n => isFalse (fun h => n (JValue.str.inj h))
  | JValue.str _, JValue.arr _ => isFalse (fun h => JValue.noConfusion h)
  | JValue.str _, JValue.obj _ => isFalse (fun h => JValue.noConfusion h)
  | JValue.str _, JValue.flt _ => isFalse (fun h => JValue.noConfusion h)
  | JValue.arr _, JValue.null => isFalse (fun h => JValue.noConfusion h)
  | JValue.arr _, JValue.bool _ => isFalse (fun h => JValue.noConfusion h)
  | JValue.arr _, JValue.num _ => isFalse (fun h => JValue.noConfusion h)
  | JValue.arr _, JValue.str _ => isFalse (fun h => JValue.noConfusion h)
  | JValue.arr a, JValue.arr b =>
    match jvDecEqList a b with
    | isTrue h => isTrue (congrArg JValue.arr h)
    | isFalse n => isFalse (fun h => n (JValue.arr.inj h))
  | JValue.arr _, JValue.obj _ => isFalse (fun h => JValue.noConfusion h)
  | JValue.arr _, JValue.flt _ => isFalse (fun h => JValue.noConfusion h)
  | JValue.obj _, JValue.null => isFalse (fun h => JValue.noConfusion h)
  | JValue.obj _, JValue.bool _ => isFalse (fun h => JValue.noConfusion h)
  | JValue.obj _, JValue.num _ => isFalse (fun h => JValue.noConfusion h)
  | JValue.obj _, JValue.str _ => isFalse (fun h => JValue.noConfusion h)
  | JValue.obj _, JValue.arr _ => isFalse (fun h => JValue.noConfusion h)
  | JValue.obj a, JValue.obj b =>
    match jvDecEqObj a b with
    | isTrue h => isTrue (congrArg JValue.obj h)
    | isFalse n => isFalse (fun h => n (JValue.obj.inj h))
  | JValue.obj _, JValue.flt _ => isFalse (fun h => JValue.noConfusion h)
  | JValue.flt _, JValue.null => isFalse (fun h => JValue.noConfusion h)
  | JValue.flt _, JValue.bool _ => isFalse (fun h => JValue.noConfusion h)
  | JValue.flt _, JValue.num _ => isFalse (fun h => JValue.noConfusion h)
  | JValue.flt _, JValue.str _ => isFalse (fun h => JValue.noConfusion h)
  | JValue.flt _, JValue.arr _ => isFalse (fun h => JValue.noConfusion h)
  | JValue.flt _, JValue.obj _ => isFalse (fun h => JValue.noConfusion h)
  | JValue.flt a, JValue.flt b =>
    match decEq a b with
    | isTrue h => isTrue (congrArg JValue.flt h)
    | isFalse n => isFalse (fun h => n (JValue.flt.inj h))

/-- Decidable equality on lists of JSON values. -/
def jvDecEqList : (a b : List JValue) → Decidable (a = b)
  | [], [] => isTrue rfl
  | [], _ :: _ => isFalse (fun h => List.noConfusion h)
  | _ :: _, [] => isFalse (fun h => List.noConfusion h)
  | x :: xs, y :: ys =>
    match jvDecEq x y with
    | isFalse n => isFalse (fun h => n (List.head_eq_of_cons_eq h))
    | isTrue h1 =>
      match jvDecEqList xs ys with
      | isTrue h2 => isTrue (by rw [h1, h2])
      | isFalse n => isFalse (fun h => n (List.tail_eq_of_cons_eq h))

/-- Decidable equality on JSON object field lists. -/
def jvDecEqObj : (a b : List (String × JValue)) → Decidable (a = b)
  | [], [] => isTrue rfl
  | [], _ :: _ => isFalse (fun h => List.noConfusion h)
  | _ :: _, [] => isFalse (fun h => List.noConfusion h)
  | (k1, v1) :: xs, (k2, v2) :: ys =>
    match decEq k1 k2 with
    | isFalse n =>
      isFalse (fun h => n (congrArg Prod.fst (List.head_eq_of_cons_eq h)))
    | isTrue hk =>
      match jvDecEq v1 v2 with
      | isFalse n =>
        isFalse (fun h => n (congrArg Prod.snd (List.head_eq_of_cons_eq h)))
      | isTrue hv =>
        match jvDecEqObj xs ys with
        | isTrue ht => isTrue (by rw [hk, hv, ht])
        | isFalse n => isFalse (fun h => n (List.tail_eq_of_cons_eq h))

end

instance : DecidableEq JValue := jvDecEq

/-- Insert a key into an object under Python dict semantics: an existing
key keeps its position but gets the new value; a new key is appended. -/
def objInsert (acc : List (String × JValue)) (k : String) (v : JValue) :
    List (String × JValue) :=
  if acc.any (fun p => p.1 = k) then
    acc.map (fun p => if p.1 = k then (k, v) else p)
  else
    acc ++ [(k, v)]

/-- Translate a JSON string escape character. `\u` escapes are not needed
by any input verified here. -/
def escChar (e : Char) : Option Char :=
  if e = '"' then some '"'
  else if e = '\\' then some '\\'
  else if e = '/' then some '/'
  else if e = 'n' then some '\n'
  else if e = 't' then some '\t'
  else if e = 'r' then some '\r'
  else if e = 'b' then some '\x08'
  else if e = 'f' then some '\x0c'
  else none

/-- Parse the remainder of a JSON string literal (the opening quote has
been consumed), accumulating characters in reverse. -/
def parseStringRest : List Char → List Char → Option (String × List Char)
  | [], _ => none
  | '"' :: r, acc => some (String.mk acc.reverse, r)
  | '\\' :: e :: r, acc =>
    match escChar e with
    | some ec => parseStringRest r (ec :: acc)
    | none => none
  | '\\' :: [], _ => none
  | c :: r, acc => parseStringRest r (c :: acc)

/-- Digits to an integer value. -/
def digitsToInt (l : List Char) : Int :=
  l.foldl (fun acc c => acc * 10 + ((c.toNat - '0'.toNat : Nat) : Int)) 0

/-- The integer part of a JSON number per Python's `NUMBER_RE`
(`0 | [1-9][0-9]*`): a lone `0`, or a nonzero digit followed by digits;
leading zeros are rejected, as by `json.loads`. -/
def parseIntPart : List Char → Option (List Char × List Char)
  | [] => none
  | c :: r =>
    if c = '0' then some (['0'], r)
    else if c.isDigit then
      some (c :: r.takeWhile Char.isDigit, r.dropWhile Char.isDigit)
    else none

/-- The optional fraction part `\.[0-9]+` of a JSON number; when the
pattern does not match, nothing is consumed (the regex simply matches
without a fraction group). -/
def parseFracPart (l : List Char) : Option (List Char) × List Char :=
  match l with
  | '.' :: r =>
    (if (r.takeWhile Char.isDigit).isEmpty then (none, l)
     else (some ('.' :: r.takeWhile Char.isDigit), r.dropWhile Char.isDigit))
  | _ => (none, l)

/-- The optional exponent part `[eE][+-]?[0-9]+` of a JSON number; when
the pattern does not match, nothing is consumed. -/
def parseExpPart (l : List Char) : Option (List Char) × List Char :=
  match l with
  | c :: s :: r2 =>
    if c = 'e' ∨ c = 'E' then
      (if s = '+' ∨ s = '-' then
        (if (r2.takeWhile Char.isDigit).isEmpty then (none, l)
         else (some (c :: s :: r2.takeWhile Char.isDigit),
               r2.dropWhile Char.isDigit))
      else
        (if (s :: r2).takeWhile Char.isDigit = [] then (none, l)
         else (some (c :: (s :: r2).takeWhile Char.isDigit),
               (s :: r2).dropWhile Char.isDigit)))
    else (none, l)
  | _ => (none, l)

/-- Combine the matched number groups: an integer-only match is a Python
`int`; a fraction or exponent makes it a `float`, carried as its literal
text. -/
def mkJsonNum (neg : Bool) (ip : List Char) (fp ep : Option (List Char)) :
    JValue :=
  match fp, ep with
  | none, none =>
    JValue.num (if neg then -(digitsToInt ip) else digitsToInt ip)
  | _, _ =>
    JValue.flt (String.mk ((if neg then ['-'] else []) ++ ip
      ++ fp.getD [] ++ ep.getD []))

/-- Parse a JSON number as Python's `json.loads` does: `NUMBER_RE` with
strict integer part, optional fraction and exponent, plus the scanner's
special case for the `-Infinity` constant (`NaN` and `Infinity` are
handled at the value dispatch). -/
def parseNumber (l : List Char) : Option (JValue × List Char) :=
  match l with
  | '-' :: r =>
    if r.take 8 = ['I', 'n', 'f', 'i', 'n', 'i', 't', 'y'] then
      some (JValue.flt "-Infinity", r.drop 8)
    else
      (match parseIntPart r with
      | none => none
      | some (ip, r1) =>
        match parseFracPart r1 with
        | (fp, r2) =>
          match parseExpPart r2 with
          | (ep, r3) => some (mkJsonNum true ip fp ep, r3))
  | _ =>
    match parseIntPart l with
    | none => none
    | some (ip, r1) =>
      match parseFracPart r1 with
      | (fp, r2) =>
        match parseExpPart r2 with
        | (ep, r3) => some (mkJsonNum false ip fp ep, r3)

mutual

/-- Recursive-descent JSON value parsing, fuelled to satisfy the
termination checker; `jsonLoadsL` supplies ample fuel. -/
def parseValue : Nat → List Char → Option (JValue × List Char)
  | 0, _ => none
  | _ + 1, [] => none
  | fuel + 1, c :: rest =>
    if c = '\x7b' then parseObjItems fuel (skipWs rest) []
    else if c = '[' then parseArrItems fuel (skipWs rest) []
    else if c = '"' then
      Option.map (fun p => (JValue.str p.1, p.2)) (parseStringRest rest [])
    else if c = 't' then
      (if rest.take 3 = ['r', 'u', 'e'] then
        some (JValue.bool true, rest.drop 3) else none)
    else if c = 'f' then
      (if rest.take 4 = ['a', 'l', 's', 'e'] then
        some (JValue.bool false, rest.drop 4) else none)
    else if c = 'n' then
      (if rest.take 3 = ['u', 'l', 'l'] then
        some (JValue.null, rest.drop 3) else none)
    else if c = 'N' then
      (if rest.take 2 = ['a', 'N'] then
        some (JValue.flt "NaN", rest.drop 2) else none)
    else if c = 'I' then
      (if rest.take 7 = ['n', 'f', 'i', 'n', 'i', 't', 'y'] then
        some (JValue.flt "Infinity", rest.drop 7) else none)
    else if c = '-' || c.isDigit then parseNumber (c :: rest)
    else none

/-- Parse array items after `[` (leading whitespace already skipped). -/
def parseArrItems : Nat → List Char → List JValue →
    Option (JValue × List Char)
  | 0, _, _ => none
  | fuel + 1, l, acc =>
    match l with
    | [] => none
    | ']' :: r => if acc.isEmpty then some (JValue.arr [], r) else none
    | _ =>
      match parseValue fuel l with
      | none => none
      | some (v, r1) =>
        match skipWs r1 with
        | ',' :: r2 => parseArrItems fuel (skipWs r2) (acc ++ [v])
        | ']' :: r2 => some (JValue.arr (acc ++ [v]), r2)
        | _ => none

/-- Parse object items after `\x7b` (leading whitespace already skipped). -/
def parseObjItems : Nat → List Char → List (String × JValue) →
    Option (JValue × List Char)
  | 0, _, _ => none
  | fuel + 1, l, acc =>
    match l with
    | '\x7d' :: r => if acc.isEmpty then some (JValue.obj [], r) else none
    | '"' :: r =>
      (match parseStringRest r [] with
      | none => none
      | some (k, r1) =>
        match skipWs r1 with
        | ':' :: r2 =>
          (match parseValue fuel (skipWs r2) with
          | none => none
          | some (v, r3) =>
            match skipWs r3 with
            | ',' :: r4 => parseObjItems fuel (skipWs r4) (objInsert acc k v)
            | '\x7d' :: r4 => some (JValue.obj (objInsert acc k v), r4)
            | _ => none)
        | _ => none)
    | _ => none

end

/-- Python `json.loads` on a character list: parse one value, demand only
whitespace afterwards. Returns `none` where `json.loads` raises
`JSONDecodeError`. -/
def jsonLoadsL (l : List Char) : Option JValue :=
  match parseValue (l.length + 1) (skipWs l) with
  | some (v, rest) => if (skipWs rest).isEmpty then some v else none
  | none => none

/-- Python `json.loads` on strings. -/
def jsonLoads (s : String) : Option JValue :=
  jsonLoadsL s.toList

/-!
## Plan extraction (`src/client.py`, `plan_tool_use`, lines 163-176)

The source extracts the capture group of
`re.search(r"(?:json)?\s*([\s\S]+?)\s*", content)` from the stripped model
text.  Because the inner group is lazy and the surrounding pieces are
optional, the leftmost match (at position 0) captures exactly one
character: an optional literal `json` prefix is consumed, then greedy
whitespace, then the lazy `[\s\S]+?` matches a single character and the
trailing `\s*` matches the empty string.  On input `json` alone the
engine backtracks the optional prefix and captures `j`; on all-whitespace
leftovers it backtracks the greedy `\s*` by one and captures the final
whitespace character.  `extractedCharL` is that composed behaviour; the
regex never fails on nonempty input.
-/

/-- The single character captured by the source's extraction regex, or
`none` when the regex finds no match (empty input only). -/
def extractedCharL (l : List Char) : Option Char :=
  match l with
  | [] => none
  | _ :: _ =>
    let t := if l.take 4 = ['j', 's', 'o', 'n'] then l.drop 4 else l
    match t with
    | [] => some 'j'
    | _ :: _ =>
      match t.dropWhile isPySpace with
      | c :: _ => some c
      | [] => t.getLast?

/-- The `json_text` variable of `plan_tool_use`: the regex capture when
the regex matches, the whole content otherwise. -/
def extractJsonTextL (l : List Char) : List Char :=
  match extractedCharL l with
  | none => l
  | some c => [c]

/-- Shallow embedding of the parsing portion of `plan_tool_use`
(`src/client.py` lines 163-176): strip the model text, run the extraction
regex, `json.loads` the result; a decoded list is returned as the plan,
any other decoded value yields an empty plan, and a decoding failure
yields an empty plan together with the raw stripped text printed as a
diagnostic (modelled as the second component).  The `try/except` makes
the source total, which the embedding reflects by returning a pair. -/
def plan_tool_use_parse (raw : String) : List JValue × Option String :=
  match jsonLoadsL (extractJsonTextL (pyStrip raw).toList) with
  | some (JValue.arr xs) => (xs, none)
  | some _ => ([], none)
  | none => ([], some (pyStrip raw))

/-!
## Executor (`src/client.py`, `process_query`, lines 76-96)
-/

/-- Python exceptions relevant to the embedded code paths. -/
inductive PyErr where
  | typeError : String → PyErr
  | keyError : String → PyErr
  | exn : String → PyErr
deriving DecidableEq, Repr

/-- The message text of a Python exception, as interpolated by
`str(e)`. -/
def pyErrMsg : PyErr → String
  | PyErr.typeError m => m
  | PyErr.keyError m => m
  | PyErr.exn m => m

/-- Decidable equality on `Except` results (not provided by the core
library for this version). -/
def exceptDecEq {ε α : Type} [DecidableEq ε] [DecidableEq α] :
    (a b : Except ε α) → Decidable (a = b)
  | Except.error e1, Except.error e2 =>
    match decEq e1 e2 with
    | isTrue h => isTrue (congrArg Except.error h)
    | isFalse n => isFalse (fun h => n (Except.error.inj h))
  | Except.error _, Except.ok _ => isFalse (fun h => Except.noConfusion h)
  | Except.ok _, Except.error _ => isFalse (fun h => Except.noConfusion h)
  | Except.ok a1, Except.ok a2 =>
    match decEq a1 a2 with
    | isTrue h => isTrue (congrArg Except.ok h)
    | isFalse n => isFalse (fun h => n (Except.ok.inj h))

instance {ε α : Type} [DecidableEq ε] [DecidableEq α] :
    DecidableEq (Except ε α) := exceptDecEq

/-- First-match lookup in an ordered string-keyed mapping (Python dict
read access; keys are unique by construction). -/
def lookupStr (m : List (String × JValue)) (k : String) : Option JValue :=
  match m with
  | [] => none
  | p :: r => if p.1 = k then some p.2 else lookupStr r k

/-- First-match lookup in the `tool_outputs` mapping, which is keyed by
the step's `name` value. -/
def lookupJ (m : List (JValue × String)) (k : JValue) : Option String :=
  match m with
  | [] => none
  | p :: r => if p.1 = k then some p.2 else lookupJ r k

/-- Python dict write `m[k] = v`: overwrite in place when the key exists,
append otherwise. -/
def updateJ (m : List (JValue × String)) (k : JValue) (v : String) :
    List (JValue × String) :=
  if m.any (fun p => p.1 = k) then
    m.map (fun p => if p.1 = k then (k, v) else p)
  else
    m ++ [(k, v)]

/-- `val.startswith("\x7b\x7b") and val.endswith("\x7d\x7d")`: the
placeholder test of `src/client.py` line 84. -/
def isPlaceholder (s : String) : Bool :=
  pyStartsWith "\x7b\x7b" s && pyEndsWith "\x7d\x7d" s

/-- `val.strip("\x7b\x7d ")`: the referenced tool name of a placeholder
(`src/client.py` line 85). -/
def refKeyOf (s : String) : String :=
  pyStripChars "\x7b\x7d " s

/-- Resolve one argument value against the accumulated tool outputs
(`src/client.py` lines 83-87): a string value shaped like a placeholder
is replaced by `tool_outputs.get(ref_key, None)` - the recorded output
text, or `None` when absent; every other value passes through. -/
def resolveVal (outputs : List (JValue × String)) (v : JValue) : JValue :=
  match v with
  | JValue.str s =>
    if isPlaceholder s then
      match lookupJ outputs (JValue.str (refKeyOf s)) with
      | some t => JValue.str t
      | none => JValue.null
    else JValue.str s
  | _ => v

/-- Resolve a whole arguments mapping (the `for key, val in
tool_args.items()` loop): values are rewritten in place, keys and order
are untouched. -/
def resolveArgs (outputs : List (JValue × String))
    (args : List (String × JValue)) : List (String × JValue) :=
  args.map (fun p => (p.1, resolveVal outputs p.2))

/-- The generated filename and path injected by `process_query`
(`txt_filename` and `txt_path`, `src/client.py` lines 62-67). -/
structure QueryCfg where
  txtFilename : String
  txtPath : String

/-- Default-argument injection (`src/client.py` lines 88-92): the two
recognized tools receive the generated filename/path only when the step's
arguments omit the corresponding key. -/
def injectDefaults (cfg : QueryCfg) (toolName : JValue)
    (args : List (String × JValue)) : List (String × JValue) :=
  let a1 :=
    if toolName = JValue.str "analyze_sentiment" ∧
        lookupStr args "filename" = none then
      args ++ [("filename", JValue.str cfg.txtFilename)]
    else args
  if toolName = JValue.str "send_email_with_attachment" ∧
      lookupStr a1 "attachment_path" = none then
    a1 ++ [("attachment_path", JValue.str cfg.txtPath)]
  else a1

/-- A tool-role transcript message
(`messages.append(\x7b"role": "tool", ...\x7d)`, `src/client.py` line 96). -/
structure ToolMessage where
  role : String
  toolCallId : JValue
  content : String
deriving DecidableEq, Repr

/-- The executor's per-query state: the `tool_outputs` mapping, the
appended tool-role messages, and the list of tool invocations issued to
the collaborator (each recorded at the `call_tool` site). -/
structure ExecState where
  outputs : List (JValue × String)
  msgs : List ToolMessage
  calls : List (JValue × List (String × JValue))
deriving DecidableEq, Repr

/-- The state at the start of a query. -/
def initState : ExecState := ⟨[], [], []⟩

/-- One iteration of the `for step in tool_plan` loop (`src/client.py`
lines 79-96): read `step["name"]` and `step["arguments"]`, resolve
placeholders, inject defaults, invoke the tool host, then record the
result text under the tool name and append a tool-role message.  The
collaborator's `Except.ok` covers every returned `CallToolResult` - per
the MCP SDK, tool-level failures (unknown tool, schema mismatch, a
raising remote tool) come back as such a result with `isError` set and
the error text as content, which this loop records like any output; the
`Except.error` path models an actual Python exception (a malformed step
dict, or a transport-level raise), which - there being no `try/except`
in the loop - aborts the plan. -/
def execStep (callTool : JValue → List (String × JValue) → Except PyErr String)
    (cfg : QueryCfg) (st : ExecState) (step : JValue) :
    ExecState × Option PyErr :=
  match step with
  | JValue.obj fields =>
    (match lookupStr fields "name" with
    | none => (st, some (PyErr.keyError "name"))
    | some toolName =>
      match lookupStr fields "arguments" with
      | none => (st, some (PyErr.keyError "arguments"))
      | some (JValue.obj kvs) =>
        let finalArgs := injectDefaults cfg toolName (resolveArgs st.outputs kvs)
        let st1 : ExecState := { st with calls := st.calls ++ [(toolName, finalArgs)] }
        (match callTool toolName finalArgs with
        | Except.error e => (st1, some e)
        | Except.ok text =>
          ({ st1 with
              outputs := updateJ st1.outputs toolName text,
              msgs := st1.msgs ++ [⟨"tool", toolName, text⟩] }, none))
      | some _ => (st, some (PyErr.typeError "arguments is not a mapping")))
  | _ => (st, some (PyErr.typeError "step is not a mapping"))

/-- The whole `for step in tool_plan` loop: steps run strictly
sequentially; the first exception aborts the remaining steps. -/
def execPlan (callTool : JValue → List (String × JValue) → Except PyErr String)
    (cfg : QueryCfg) : ExecState → List JValue → ExecState × Option PyErr
  | st, [] => (st, none)
  | st, step :: rest =>
    match execStep callTool cfg st step with
    | (st1, some e) => (st1, some e)
    | (st1, none) => execPlan callTool cfg st1 rest

/-!
## Iterative client (`src/fastmcp_sse_client.py`, `ChatSession`)
-/

/-- The fence-stripping prelude of `process_llm_response` (lines 44-46):
when the reply starts with three backticks followed by `json`, Python's
`str.strip` removes any of the characters of the argument from both ends,
then backticks are stripped again, then whitespace. -/
def stripFencedJson (s : String) : String :=
  if pyStartsWith "```json" s then
    pyStrip (pyStripChars "```" (pyStripChars "```json" s))
  else s

/-- Contiguous-sublist test, used for Python's substring `in`. -/
def subListOf : List Char → List Char → Bool
  | needle, [] => needle.isEmpty
  | needle, c :: t => needle.isPrefixOf (c :: t) || subListOf needle t

/-- Python's `in` operator applied to a decoded JSON value: key test for
dicts, element test for lists, substring test for strings, and an
uncaught `TypeError` for the remaining scalar types. -/
def jsonMember (key : String) (j : JValue) : Except PyErr Bool :=
  match j with
  | JValue.obj fields => Except.ok (fields.any (fun p => p.1 = key))
  | JValue.arr xs => Except.ok (xs.any (fun x => x = JValue.str key))
  | JValue.str s => Except.ok (subListOf key.toList s.toList)
  | _ => Except.error (PyErr.typeError "argument of type is not iterable")

/-- Python's subscript `j[key]` with a string key: dict lookup, and a
`TypeError` on strings and lists (string/list indices must be integers). -/
def jsonGetItem (j : JValue) (key : String) : Except PyErr JValue :=
  match j with
  | JValue.obj fields =>
    (match lookupStr fields key with
    | some v => Except.ok v
    | none => Except.error (PyErr.keyError key))
  | _ => Except.error (PyErr.typeError "indices must be integers")

/-- Python `str(j)` as interpolated into the f-strings of
`process_llm_response`; the container cases are never exercised by the
inputs verified here. -/
def pyStr (j : JValue) : String :=
  match j with
  | JValue.str s => s
  | JValue.num n => toString n
  | JValue.flt s => s
  | JValue.bool b => if b then "True" else "False"
  | JValue.null => "None"
  | _ => "object"

/-- Shallow embedding of `ChatSession.process_llm_response`
(`src/fastmcp_sse_client.py` lines 39-63).  The tool catalog and the
`call_tool` collaborator are parameters; the result pairs the returned
string (or the propagated exception - only `json.JSONDecodeError` is
caught) with the list of tool invocations issued. -/
def process_llm_response (toolNames : List String)
    (callTool : JValue → JValue → Except PyErr String)
    (llmResponse : String) : Except PyErr String × List (JValue × JValue) :=
  match jsonLoadsL (stripFencedJson llmResponse).toList with
  | none => (Except.ok (stripFencedJson llmResponse), [])
  | some toolCall =>
    match jsonMember "tool" toolCall with
    | Except.error e => (Except.error e, [])
    | Except.ok false => (Except.ok (stripFencedJson llmResponse), [])
    | Except.ok true =>
      match jsonMember "arguments" toolCall with
      | Except.error e => (Except.error e, [])
      | Except.ok false => (Except.ok (stripFencedJson llmResponse), [])
      | Except.ok true =>
        match jsonGetItem toolCall "tool" with
        | Except.error e => (Except.error e, [])
        | Except.ok toolVal =>
          if toolNames.any (fun n => JValue.str n = toolVal) then
            match jsonGetItem toolCall "arguments" with
            | Except.error e => (Except.error e, [])
            | Except.ok argsVal =>
              match callTool toolVal argsVal with
              | Except.ok resText =>
                (Except.ok ("调用了" ++ pyStr toolVal ++ "工具，结果为" ++ resText),
                 [(toolVal, argsVal)])
              | Except.error e =>
                (Except.ok ("调用工具时出错：" ++ pyErrMsg e),
                 [(toolVal, argsVal)])
          else
            (Except.ok ("没有该工具：" ++ pyStr toolVal), [])

/-- The inner `while result != llm_response` loop of `ChatSession.start`
(`src/fastmcp_sse_client.py` lines 79-92), driven by a finite script of
model replies: process the current reply; when the processed result
equals the reply, the loop ends and the reply is the final answer;
otherwise the next scripted reply plays the next model response.  The
accumulator collects the tool invocations issued; `none` means the script
was exhausted while the loop still wanted another model reply. -/
def iterativeRun (toolNames : List String)
    (callTool : JValue → JValue → Except PyErr String) :
    String → List String → List (JValue × JValue) →
    Except PyErr (Option (String × List (JValue × JValue)))
  | llm, script, acc =>
    match process_llm_response toolNames callTool llm with
    | (Except.error e, _) => Except.error e
    | (Except.ok res, inv) =>
      if res = llm then Except.ok (some (llm, acc ++ inv))
      else
        match script with
        | [] => Except.ok none
        | next :: rest => iterativeRun toolNames callTool next rest (acc ++ inv)

/-- One user turn of the iterative mode: the first scripted reply is the
model's initial response, the rest feed the loop. -/
def chatTurn (toolNames : List String)
    (callTool : JValue → JValue → Except PyErr String)
    (script : List String) :
    Except PyErr (Option (String × List (JValue × JValue))) :=
  match script with
  | [] => Except.ok none
  | first :: rest => iterativeRun toolNames callTool first rest []

/-!
## Concrete fixtures used by witnesses and counterexamples
-/

/-- A query configuration with the generated filename and path. -/
def cfg0 : QueryCfg := ⟨"f.txt", "p.txt"⟩

/-- A tool host where `toolA` answers `42` and everything else `ok`. -/
def ctAB : JValue → List (String × JValue) → Except PyErr String :=
  fun n _ => if n = JValue.str "toolA" then Except.ok "42" else Except.ok "ok"

/-- A tool host where `badTool`'s invocation fails and everything else
succeeds.  Per the MCP Python SDK, tool-level failures - unknown tool,
schema mismatch, an exception raised by the remote tool - are converted
by the server into a `CallToolResult` with `isError` set whose first
content item carries the error text, and `ClientSession.call_tool`
returns that result without raising; the embedding therefore models a
failing invocation as the collaborator returning the error description
text. -/
def ctErr : JValue → List (String × JValue) → Except PyErr String :=
  fun n _ =>
    if n = JValue.str "badTool" then
      Except.ok "Error executing tool badTool: boom"
    else Except.ok "good-result"

/-- A tool host whose `toolA` output depends on its argument, to tell two
invocations of the same tool apart. -/
def ct9 : JValue → List (String × JValue) → Except PyErr String :=
  fun n a =>
    if n = JValue.str "toolA" then
      (if lookupStr a "i" = some (JValue.num 1) then Except.ok "first"
       else Except.ok "second")
    else Except.ok "ok"

/-- Plan step: `toolA` with empty arguments. -/
def stepA : JValue :=
  JValue.obj [("name", JValue.str "toolA"), ("arguments", JValue.obj [])]

/-- Plan step: `toolB` with a placeholder argument referencing `toolA`. -/
def stepB : JValue :=
  JValue.obj [("name", JValue.str "toolB"),
    ("arguments", JValue.obj [("x", JValue.str "\x7b\x7btoolA\x7d\x7d")])]

/-- Plan step: `badTool` with empty arguments. -/
def badStep : JValue :=
  JValue.obj [("name", JValue.str "badTool"), ("arguments", JValue.obj [])]

/-- Plan step: `goodTool` with empty arguments. -/
def goodStep : JValue :=
  JValue.obj [("name", JValue.str "goodTool"), ("arguments", JValue.obj [])]

/-- Plan step: first `toolA` invocation, argument `i = 1`. -/
def stepA1 : JValue :=
  JValue.obj [("name", JValue.str "toolA"),
    ("arguments", JValue.obj [("i", JValue.num 1)])]

/-- Plan step: second `toolA` invocation, argument `i = 2`. -/
def stepA2 : JValue :=
  JValue.obj [("name", JValue.str "toolA"),
    ("arguments", JValue.obj [("i", JValue.num 2)])]

/-- A single-tool host for the iterative client: every call returns `6`. -/
def ctM : JValue → JValue → Except PyErr String := fun _ _ => Except.ok "6"

/-- A scripted model reply encoding a valid `multiply` tool call. -/
def tcJson : String :=
  "\x7b\"tool\": \"multiply\", \"arguments\": \x7b\"a\": 2, \"b\": 3\x7d\x7d"

/-- The decoded arguments object of `tcJson`. -/
def tcArgs : JValue := JValue.obj [("a", JValue.num 2), ("b", JValue.num 3)]

/-- A scripted model reply naming a tool absent from the catalog. -/
def tcUnknown : String := "\x7b\"tool\": \"nope\", \"arguments\": \x7b\x7d\x7d"

/-!
## Helper lemmas
-/

theorem lookupStr_nil (k : String) : lookupStr [] k = none := rfl

theorem lookupStr_cons (p : String × JValue) (r : List (String × JValue))
    (k : String) :
    lookupStr (p :: r) k = if p.1 = k then some p.2 else lookupStr r k := rfl

theorem lookupJ_nil (k : JValue) : lookupJ [] k = none := rfl

theorem lookupJ_cons (p : JValue × String) (r : List (JValue × String))
    (k : JValue) :
    lookupJ (p :: r) k = if p.1 = k then some p.2 else lookupJ r k := rfl

theorem lookupStr_append_some {a : List (String × JValue)}
    {k : String} {v : JValue} (b : List (String × JValue))
    (h : lookupStr a k = some v) : lookupStr (a ++ b) k = some v := by
  induction a with
  | nil => simp [lookupStr_nil] at h
  | cons p r ih =>
    rw [List.cons_append, lookupStr_cons]
    rw [lookupStr_cons] at h
    by_cases hp : p.1 = k
    · simpa [hp] using h
    · rw [if_neg hp] at h ⊢
      exact ih h

theorem lookupStr_append_self {a : List (String × JValue)}
    {k : String} (v : JValue)
    (h : lookupStr a k = none) : lookupStr (a ++ [(k, v)]) k = some v := by
  induction a with
  | nil => simp [lookupStr_cons, lookupStr_nil]
  | cons p r ih =>
    rw [List.cons_append, lookupStr_cons]
    rw [lookupStr_cons] at h
    by_cases hp : p.1 = k
    · simp [hp] at h
    · rw [if_neg hp] at h ⊢
      exact ih h

theorem lookupStr_resolveArgs (o : List (JValue × String))
    (args : List (String × JValue)) (k : String) :
    lookupStr (resolveArgs o args) k =
      Option.map (resolveVal o) (lookupStr args k) := by
  induction args with
  | nil => simp [resolveArgs, lookupStr_nil]
  | cons p r ih =>
    unfold resolveArgs at ih ⊢
    simp only [List.map_cons, lookupStr_cons]
    by_cases hp : p.1 = k
    · simp [hp]
    · simp only [if_neg hp]
      exact ih

theorem lookupJ_mem {o : List (JValue × String)} {k : JValue} {t : String}
    (h : lookupJ o k = some t) : (k, t) ∈ o := by
  induction o with
  | nil => simp [lookupJ_nil] at h
  | cons p r ih =>
    rw [lookupJ_cons] at h
    by_cases hp : p.1 = k
    · rw [if_pos hp] at h
      have ht : p.2 = t := by simpa using h
      rw [List.mem_cons]
      left
      rw [← hp, ← ht]
    · rw [if_neg hp] at h
      exact List.mem_cons_of_mem _ (ih h)

theorem lookupJ_map_overwrite {m : List (JValue × String)}
    {k : JValue} (v : String) (hm : m.any (fun p => p.1 = k)) :
    lookupJ (m.map (fun p => if p.1 = k then (k, v) else p)) k = some v := by
  induction m with
  | nil => simp at hm
  | cons p r ih =>
    simp only [List.map_cons]
    by_cases hp : p.1 = k
    · simp only [if_pos hp]
      simp [lookupJ_cons]
    · simp only [if_neg hp]
      rw [lookupJ_cons, if_neg hp]
      apply ih
      simpa [List.any_cons, hp] using hm

theorem lookupJ_of_not_mem {m : List (JValue × String)} {k : JValue}
    (hm : ¬ (m.any (fun p => p.1 = k) = true)) : lookupJ m k = none := by
  induction m with
  | nil => rfl
  | cons p r ih =>
    rw [lookupJ_cons]
    by_cases hp : p.1 = k
    · exact absurd (by simp [List.any_cons, hp]) hm
    · rw [if_neg hp]
      exact ih (fun h => hm (by simp [List.any_cons, h]))

theorem lookupJ_append_self {m : List (JValue × String)} {k : JValue}
    (v : String) (h : lookupJ m k = none) :
    lookupJ (m ++ [(k, v)]) k = some v := by
  induction m with
  | nil => simp [lookupJ_cons, lookupJ_nil]
  | cons p r ih =>
    rw [List.cons_append, lookupJ_cons]
    rw [lookupJ_cons] at h
    by_cases hp : p.1 = k
    · simp [hp] at h
    · rw [if_neg hp] at h ⊢
      exact ih h

theorem lookupJ_updateJ_self (m : List (JValue × String)) (k : JValue)
    (v : String) : lookupJ (updateJ m k v) k = some v := by
  unfold updateJ
  split
  · exact lookupJ_map_overwrite v (by assumption)
  · exact lookupJ_append_self v (lookupJ_of_not_mem (by assumption))

theorem resolveVal_idem (o : List (JValue × String))
    (h : ∀ p ∈ o, isPlaceholder p.2 = false) (v : JValue) :
    resolveVal o (resolveVal o v) = resolveVal o v := by
  cases v with
  | str s =>
    by_cases hp : isPlaceholder s
    · rcases hl : lookupJ o (JValue.str (refKeyOf s)) with _ | t
      · simp [resolveVal, hp, hl]
      · have ht : isPlaceholder t = false := h _ (lookupJ_mem hl)
        simp [resolveVal, hp, hl, ht]
    · simp [resolveVal, hp]
  | null => simp [resolveVal]
  | bool b => simp [resolveVal]
  | num n => simp [resolveVal]
  | flt s => simp [resolveVal]
  | arr xs => simp [resolveVal]
  | obj fs => simp [resolveVal]

/-!
## C5 - unresolved placeholder resolves to the null sentinel
-/

/-- C5: for every arguments mapping and every placeholder value whose
referenced tool has no entry in the accumulated outputs, placeholder
resolution replaces that value with the `None` sentinel.  The resolver is
a total function (`tool_outputs.get(ref_key, None)` cannot raise), so
"does not raise" holds by construction of the embedding. -/
theorem c5_unresolved_placeholder_is_null
    (outputs : List (JValue × String)) (args : List (String × JValue))
    (k s : String)
    (hk : lookupStr args k = some (JValue.str s))
    (hp : isPlaceholder s = true)
    (hmiss : lookupJ outputs (JValue.str (refKeyOf s)) = none) :
    lookupStr (resolveArgs outputs args) k = some JValue.null := by
  rw [lookupStr_resolveArgs, hk]
  simp [resolveVal, hp, hmiss]

/-- Witness for C5 at a concrete input: argument `x = "\x7b\x7bmissing\x7d\x7d"`
with an empty outputs mapping resolves to null. -/
theorem c5_unresolved_placeholder_is_null_witness :
    lookupStr [("x", JValue.str "\x7b\x7bmissing\x7d\x7d")] "x"
        = some (JValue.str "\x7b\x7bmissing\x7d\x7d")
    ∧ isPlaceholder "\x7b\x7bmissing\x7d\x7d" = true
    ∧ lookupJ [] (JValue.str (refKeyOf "\x7b\x7bmissing\x7d\x7d")) = none
    ∧ lookupStr (resolveArgs [] [("x", JValue.str "\x7b\x7bmissing\x7d\x7d")]) "x"
        = some JValue.null :=
  ⟨by decide, by decide, by decide,
    c5_unresolved_placeholder_is_null [] [("x", JValue.str "\x7b\x7bmissing\x7d\x7d")]
      "x" "\x7b\x7bmissing\x7d\x7d" (by decide) (by decide) (by decide)⟩

/-!
## C6 - placeholder resolution is NOT idempotent in general
-/

/-- Outputs where tool `a` produced a placeholder-shaped text. -/
def outs6 : List (JValue × String) :=
  [(JValue.str "a", "\x7b\x7bb\x7d\x7d"), (JValue.str "b", "42")]

/-- Arguments referencing tool `a`. -/
def args6 : List (String × JValue) := [("x", JValue.str "\x7b\x7ba\x7d\x7d")]

/-- C6 counterexample: resolving a second time is not a no-op.  With
outputs `a ↦ "\x7b\x7bb\x7d\x7d"`, `b ↦ "42"` and argument
`x = "\x7b\x7ba\x7d\x7d"`, one resolution yields `x = "\x7b\x7bb\x7d\x7d"`
and a second resolution substitutes again, yielding `x = "42"`: the
substituted placeholder-looking value IS re-resolved by a second
application, contradicting the claim. -/
theorem c6_not_idempotent_counterexample :
    resolveArgs outs6 args6 = [("x", JValue.str "\x7b\x7bb\x7d\x7d")]
    ∧ resolveArgs outs6 (resolveArgs outs6 args6) = [("x", JValue.str "42")]
    ∧ resolveArgs outs6 (resolveArgs outs6 args6) ≠ resolveArgs outs6 args6 :=
  ⟨by decide, by decide, by decide⟩

/-- C6 amended: placeholder resolution is idempotent provided no recorded
output text is itself placeholder-shaped; within a single pass a
substituted value is indeed never re-resolved, but a second application
re-examines all values, so idempotence needs this proviso. -/
theorem c6_amended_idempotent_when_outputs_clean
    (outputs : List (JValue × String)) (args : List (String × JValue))
    (h : ∀ p ∈ outputs, isPlaceholder p.2 = false) :
    resolveArgs outputs (resolveArgs outputs args) = resolveArgs outputs args := by
  unfold resolveArgs
  rw [List.map_map]
  apply List.map_congr_left
  intro p _
  simp only [Function.comp_apply]
  rw [resolveVal_idem outputs h]

/-- Witness for the amended C6 at a concrete input. -/
theorem c6_amended_idempotent_when_outputs_clean_witness :
    (∀ p ∈ [(JValue.str "a", "42")], isPlaceholder p.2 = false)
    ∧ resolveArgs [(JValue.str "a", "42")]
        (resolveArgs [(JValue.str "a", "42")] [("x", JValue.str "\x7b\x7ba\x7d\x7d")])
      = resolveArgs [(JValue.str "a", "42")] [("x", JValue.str "\x7b\x7ba\x7d\x7d")] :=
  ⟨by decide,
    c6_amended_idempotent_when_outputs_clean [(JValue.str "a", "42")]
      [("x", JValue.str "\x7b\x7ba\x7d\x7d")] (by decide)⟩

/-!
## Executor characterization lemmas
-/

theorem execStep_eq_of_fields
    (ct : JValue → List (String × JValue) → Except PyErr String)
    (cfg : QueryCfg) (st : ExecState) (fields : List (String × JValue))
    {toolName : JValue} {kvs : List (String × JValue)}
    (hn : lookupStr fields "name" = some toolName)
    (ha : lookupStr fields "arguments" = some (JValue.obj kvs)) :
    execStep ct cfg st (JValue.obj fields) =
      (match ct toolName (injectDefaults cfg toolName (resolveArgs st.outputs kvs)) with
      | Except.error e =>
        ({ st with calls := st.calls ++
            [(toolName, injectDefaults cfg toolName (resolveArgs st.outputs kvs))] },
          some e)
      | Except.ok text =>
        ({ outputs := updateJ st.outputs toolName text,
           msgs := st.msgs ++ [⟨"tool", toolName, text⟩],
           calls := st.calls ++
            [(toolName, injectDefaults cfg toolName (resolveArgs st.outputs kvs))] },
          none)) := by
  unfold execStep
  dsimp only
  rw [hn, ha]

theorem execStep_ok_inv
    (ct : JValue → List (String × JValue) → Except PyErr String)
    (cfg : QueryCfg) (st : ExecState) (step : JValue)
    (h : (execStep ct cfg st step).2 = none) :
    ∃ fields toolName kvs text,
      step = JValue.obj fields
      ∧ lookupStr fields "name" = some toolName
      ∧ lookupStr fields "arguments" = some (JValue.obj kvs)
      ∧ ct toolName (injectDefaults cfg toolName (resolveArgs st.outputs kvs))
          = Except.ok text
      ∧ (execStep ct cfg st step).1 =
          { outputs := updateJ st.outputs toolName text,
            msgs := st.msgs ++ [⟨"tool", toolName, text⟩],
            calls := st.calls ++
              [(toolName, injectDefaults cfg toolName (resolveArgs st.outputs kvs))] } := by
  cases step with
  | obj fields =>
    rcases hn : lookupStr fields "name" with _ | toolName
    · simp [execStep, hn] at h
    · rcases ha : lookupStr fields "arguments" with _ | argv
      · simp [execStep, hn, ha] at h
      · cases argv with
        | obj kvs =>
          rcases hc : ct toolName
              (injectDefaults cfg toolName (resolveArgs st.outputs kvs)) with e1 | text
          · simp [execStep, hn, ha, hc] at h
          · exact ⟨fields, toolName, kvs, text, rfl, hn, ha, hc,
              by simp [execStep, hn, ha, hc]⟩
        | null => simp [execStep, hn, ha] at h
        | bool b => simp [execStep, hn, ha] at h
        | num n => simp [execStep, hn, ha] at h
        | flt s => simp [execStep, hn, ha] at h
        | str s => simp [execStep, hn, ha] at h
        | arr xs => simp [execStep, hn, ha] at h
  | null => simp [execStep] at h
  | bool b => simp [execStep] at h
  | num n => simp [execStep] at h
  | flt s => simp [execStep] at h
  | str s => simp [execStep] at h
  | arr xs => simp [execStep] at h

/-!
## C7 - injected defaults apply only to omitted arguments
-/

/-- C7: the injected default filename (for `analyze_sentiment`) and
attachment path (for `send_email_with_attachment`) are added exactly when
the step's arguments omit the key; a supplied value is never overridden
(for any tool name); and a step for `analyze_sentiment` whose arguments
omit `filename` is invoked with the generated filename. -/
theorem c7_injected_defaults :
    (∀ (cfg : QueryCfg) (args : List (String × JValue)),
      lookupStr args "filename" = none →
      lookupStr (injectDefaults cfg (JValue.str "analyze_sentiment") args)
          "filename" = some (JValue.str cfg.txtFilename)) ∧
    (∀ (cfg : QueryCfg) (name : JValue) (args : List (String × JValue))
        (v : JValue),
      lookupStr args "filename" = some v →
      lookupStr (injectDefaults cfg name args) "filename" = some v) ∧
    (∀ (cfg : QueryCfg) (args : List (String × JValue)),
      lookupStr args "attachment_path" = none →
      lookupStr (injectDefaults cfg (JValue.str "send_email_with_attachment") args)
          "attachment_path" = some (JValue.str cfg.txtPath)) ∧
    (∀ (cfg : QueryCfg) (name : JValue) (args : List (String × JValue))
        (v : JValue),
      lookupStr args "attachment_path" = some v →
      lookupStr (injectDefaults cfg name args) "attachment_path" = some v) ∧
    (∀ (ct : JValue → List (String × JValue) → Except PyErr String)
        (cfg : QueryCfg) (st : ExecState) (kvs : List (String × JValue)),
      lookupStr kvs "filename" = none →
      ∃ a, (execStep ct cfg st (JValue.obj
              [("name", JValue.str "analyze_sentiment"),
               ("arguments", JValue.obj kvs)])).1.calls
          = st.calls ++ [(JValue.str "analyze_sentiment", a)]
        ∧ lookupStr a "filename" = some (JValue.str cfg.txtFilename)) := by
  have inj1 : ∀ (cfg : QueryCfg) (args : List (String × JValue)),
      lookupStr args "filename" = none →
      lookupStr (injectDefaults cfg (JValue.str "analyze_sentiment") args)
        "filename" = some (JValue.str cfg.txtFilename) := by
    intro cfg args h
    simp only [injectDefaults]
    split
    · split
      · rename_i hc2
        exact absurd hc2.1 (by decide)
      · exact lookupStr_append_self _ h
    · rename_i hc
      exact absurd ⟨trivial, h⟩ hc
  refine ⟨inj1, ?_, ?_, ?_, ?_⟩
  · intro cfg name args v h
    simp only [injectDefaults]
    split
    · rename_i hc
      exact absurd hc.2 (by simp [h])
    · split
      · exact lookupStr_append_some _ h
      · exact h
  · intro cfg args h
    simp only [injectDefaults]
    split
    · rename_i hc
      exact absurd hc.1 (by decide)
    · split
      · exact lookupStr_append_self _ h
      · rename_i hc2
        exact absurd ⟨trivial, h⟩ hc2
  · intro cfg name args v h
    simp only [injectDefaults]
    split
    · split
      · rename_i hc2
        exact absurd hc2.2 (by simp [lookupStr_append_some _ h])
      · exact lookupStr_append_some _ h
    · split
      · rename_i hc2
        exact absurd hc2.2 (by simp [h])
      · exact h
  · intro ct cfg st kvs h
    have hres : lookupStr (resolveArgs st.outputs kvs) "filename" = none := by
      rw [lookupStr_resolveArgs, h]
      rfl
    refine ⟨injectDefaults cfg (JValue.str "analyze_sentiment")
      (resolveArgs st.outputs kvs), ?_, inj1 cfg _ hres⟩
    rw [execStep_eq_of_fields ct cfg st [("name", JValue.str "analyze_sentiment"),
      ("arguments", JValue.obj kvs)] rfl rfl]
    rcases ct (JValue.str "analyze_sentiment")
        (injectDefaults cfg (JValue.str "analyze_sentiment")
          (resolveArgs st.outputs kvs)) with e | text
    · rfl
    · rfl

theorem execPlan_nil
    (ct : JValue → List (String × JValue) → Except PyErr String)
    (cfg : QueryCfg) (st : ExecState) : execPlan ct cfg st [] = (st, none) := rfl

theorem execPlan_cons_err
    (ct : JValue → List (String × JValue) → Except PyErr String)
    (cfg : QueryCfg) {st : ExecState} {step : JValue} {st1 : ExecState}
    {e : PyErr} (rest : List JValue)
    (hs : execStep ct cfg st step = (st1, some e)) :
    execPlan ct cfg st (step :: rest) = (st1, some e) := by
  simp only [execPlan, hs]

theorem execPlan_cons_ok
    (ct : JValue → List (String × JValue) → Except PyErr String)
    (cfg : QueryCfg) {st : ExecState} {step : JValue} {st1 : ExecState}
    (rest : List JValue)
    (hs : execStep ct cfg st step = (st1, none)) :
    execPlan ct cfg st (step :: rest) = execPlan ct cfg st1 rest := by
  simp only [execPlan, hs]

/-!
## C1 / C3 - the plan extraction regex captures a single character
-/

theorem parseObjItems_nil (f : Nat) (acc : List (String × JValue)) :
    parseObjItems f [] acc = none := by
  cases f <;> rfl

theorem parseArrItems_nil (f : Nat) (acc : List JValue) :
    parseArrItems f [] acc = none := by
  cases f <;> rfl

theorem parseValue_single (fuel : Nat) (c : Char) :
    parseValue (fuel + 1) [c] = none
    ∨ ∃ d, parseValue (fuel + 1) [c] = some (JValue.num d, []) := by
  by_cases h1 : c = '\x7b'
  · subst h1
    exact Or.inl (parseObjItems_nil fuel [])
  by_cases h2 : c = '['
  · subst h2
    exact Or.inl (parseArrItems_nil fuel [])
  by_cases h3 : c = '"'
  · subst h3
    exact Or.inl rfl
  by_cases h4 : c = 't'
  · subst h4
    exact Or.inl rfl
  by_cases h5 : c = 'f'
  · subst h5
    exact Or.inl rfl
  by_cases h6 : c = 'n'
  · subst h6
    exact Or.inl rfl
  by_cases hN : c = 'N'
  · subst hN
    exact Or.inl rfl
  by_cases hI : c = 'I'
  · subst hI
    exact Or.inl rfl
  by_cases hm : c = '-'
  · subst hm
    exact Or.inl rfl
  by_cases hd : c.isDigit = true
  · have hstep : parseValue (fuel + 1) [c] = parseNumber [c] := by
      unfold parseValue
      simp only [if_neg h1, if_neg h2, if_neg h3, if_neg h4, if_neg h5,
        if_neg h6, if_neg hN, if_neg hI]
      rw [if_pos (by simp [hd])]
    rw [hstep]
    right
    refine ⟨digitsToInt [c], ?_⟩
    have hip : parseIntPart [c] = some ([c], []) := by
      by_cases h0 : c = '0'
      · subst h0
        rfl
      · simp only [parseIntPart]
        rw [if_neg h0, if_pos hd]
        rfl
    unfold parseNumber
    split
    · rename_i r heq
      exact absurd (List.head_eq_of_cons_eq heq.symm).symm hm
    · rw [hip]
      rfl
  · left
    unfold parseValue
    simp only [if_neg h1, if_neg h2, if_neg h3, if_neg h4, if_neg h5,
      if_neg h6, if_neg hN, if_neg hI]
    rw [if_neg (by simp [hm, hd])]

theorem jsonLoadsL_single (c : Char) :
    jsonLoadsL [c] = none ∨ ∃ d, jsonLoadsL [c] = some (JValue.num d) := by
  unfold jsonLoadsL
  by_cases hw : jsonWsChar c
  · left
    have hsk : skipWs [c] = [] := by simp [skipWs, hw]
    rw [hsk]
    rfl
  · have hsk : skipWs [c] = [c] := by simp [skipWs, hw]
    rw [hsk]
    have hlen : ([c] : List Char).length + 1 = 1 + 1 := rfl
    rw [hlen]
    rcases parseValue_single 1 c with h | ⟨d, h⟩
    · rw [h]
      left
      rfl
    · rw [h]
      right
      exact ⟨d, rfl⟩

theorem extractedCharL_cons_isSome (a : Char) (t : List Char) :
    (extractedCharL (a :: t)).isSome = true := by
  unfold extractedCharL
  dsimp only
  split
  · rfl
  · split
    · rfl
    · rename_i hcons _ _
      rw [Option.isSome_iff_ne_none]
      intro hnone
      rw [List.getLast?_eq_none_iff] at hnone
      exact absurd (hnone ▸ hcons) (by simp)

theorem extractJsonTextL_shape (l : List Char) :
    extractJsonTextL l = [] ∨ ∃ c, extractJsonTextL l = [c] := by
  cases l with
  | nil => exact Or.inl rfl
  | cons a t =>
    right
    unfold extractJsonTextL
    rcases hx : extractedCharL (a :: t) with _ | c
    · have := extractedCharL_cons_isSome a t
      rw [hx] at this
      exact absurd this (by simp)
    · exact ⟨c, rfl⟩

/-- The well-formed one-step plan text of the claim. -/
def planTextA : String :=
  "[\x7b\"name\": \"toolA\", \"arguments\": \x7b\x7d\x7d]"

/-- C1 (code bug): `planTextA` is well-formed plan JSON - `json.loads`
decodes it to the one-step array - yet the parsing portion of
`plan_tool_use` returns the empty plan (with the raw text as the failure
diagnostic), because the extraction regex
`(?:json)?\s*([\s\S]+?)\s*` (a code-fence regex whose backtick
delimiters were lost) captures only the first character `[`, which fails
to decode.  The claim describes the evident intent; the code, as written,
drops every well-formed plan. -/
theorem c1_wellformed_plan_dropped :
    jsonLoads planTextA
      = some (JValue.arr [JValue.obj [("name", JValue.str "toolA"),
          ("arguments", JValue.obj [])]])
    ∧ plan_tool_use_parse planTextA = ([], some planTextA) :=
  ⟨by decide, by decide⟩

/-- C3 counterexample: the malformed planner text `7 apples` (not JSON)
yields the empty plan without raising, but NO diagnostic is surfaced: the
regex captures `7`, which decodes as a JSON number, so the non-list
branch returns silently and the raw text is never reported. -/
theorem c3_no_diagnostic_counterexample :
    plan_tool_use_parse "7 apples" = ([], none) := by decide

/-- C3 amended: for every planner text (malformed ones included) the
parsing portion of `plan_tool_use` returns the empty plan and never
raises; the raw stripped text is surfaced as a diagnostic only when JSON
decoding of the extracted text fails, not when the extracted character
decodes (e.g. digit-leading malformed text). -/
theorem c3_amended_empty_plan_total (raw : String) :
    (plan_tool_use_parse raw).1 = []
    ∧ ((plan_tool_use_parse raw).2 = none
        ∨ (plan_tool_use_parse raw).2 = some (pyStrip raw)) := by
  unfold plan_tool_use_parse
  rcases extractJsonTextL_shape ((pyStrip raw).toList) with he | ⟨c, he⟩
  · rw [he]
    exact ⟨rfl, Or.inr rfl⟩
  · rw [he]
    rcases jsonLoadsL_single c with h | ⟨d, h⟩
    · rw [h]
      exact ⟨rfl, Or.inr rfl⟩
    · rw [h]
      exact ⟨rfl, Or.inl rfl⟩

/-!
## C2 - a failing step is recorded and execution continues
-/

/-- C2: per the MCP collaborator contract, a step whose tool invocation
fails (unknown tool, schema mismatch, remote exception) yields an
`isError` `CallToolResult` whose content text describes the failure, and
`call_tool` returns it without raising.  `process_query` then records
that text under the tool name (the StepResult with the error populated),
appends a tool-role message carrying it, and continues with every
remaining step: the loop body treats the returned result uniformly, so
the statement quantifies over the returned text.  In the concrete plan
`[badTool, goodTool]` where `badTool` fails, `goodTool` IS invoked and
the transcript holds both the error message and `goodTool`'s success
message. -/
theorem c2_failing_step_recorded_and_continues :
    (∀ (ct : JValue → List (String × JValue) → Except PyErr String)
        (cfg : QueryCfg) (st : ExecState) (step : JValue) (rest : List JValue),
      (execStep ct cfg st step).2 = none →
      execPlan ct cfg st (step :: rest)
        = execPlan ct cfg (execStep ct cfg st step).1 rest) ∧
    (∀ (ct : JValue → List (String × JValue) → Except PyErr String)
        (cfg : QueryCfg) (st : ExecState) (fields : List (String × JValue))
        (toolName : JValue) (kvs : List (String × JValue)) (errText : String),
      lookupStr fields "name" = some toolName →
      lookupStr fields "arguments" = some (JValue.obj kvs) →
      ct toolName (injectDefaults cfg toolName (resolveArgs st.outputs kvs))
          = Except.ok errText →
      (execStep ct cfg st (JValue.obj fields)).2 = none
      ∧ lookupJ (execStep ct cfg st (JValue.obj fields)).1.outputs toolName
          = some errText
      ∧ (execStep ct cfg st (JValue.obj fields)).1.msgs
          = st.msgs ++ [⟨"tool", toolName, errText⟩]) ∧
    ((execPlan ctErr cfg0 initState [badStep, goodStep]).2 = none
      ∧ (execPlan ctErr cfg0 initState [badStep, goodStep]).1.calls
          = [(JValue.str "badTool", []), (JValue.str "goodTool", [])]
      ∧ (execPlan ctErr cfg0 initState [badStep, goodStep]).1.msgs
          = [⟨"tool", JValue.str "badTool", "Error executing tool badTool: boom"⟩,
             ⟨"tool", JValue.str "goodTool", "good-result"⟩]
      ∧ lookupJ (execPlan ctErr cfg0 initState [badStep, goodStep]).1.outputs
            (JValue.str "badTool")
          = some "Error executing tool badTool: boom") := by
  refine ⟨?_, ?_, by decide, by decide, by decide, by decide⟩
  · intro ct cfg st step rest h
    rcases hs : execStep ct cfg st step with ⟨st1, oe⟩
    rw [hs] at h
    have hoe : oe = none := h
    subst hoe
    rw [execPlan_cons_ok ct cfg rest hs]
  · intro ct cfg st fields toolName kvs errText hn ha hc
    rw [execStep_eq_of_fields ct cfg st fields hn ha, hc]
    exact ⟨rfl, lookupJ_updateJ_self _ _ _, rfl⟩

/-- Witness for C2 at the concrete failing step: `badTool`'s error result
is recorded, its tool-role message appended, and execution proceeds to
the rest of the plan. -/
theorem c2_failing_step_recorded_and_continues_witness :
    (execPlan ctErr cfg0 initState (badStep :: [goodStep])
      = execPlan ctErr cfg0 (execStep ctErr cfg0 initState badStep).1 [goodStep])
    ∧ ((execStep ctErr cfg0 initState badStep).2 = none
      ∧ lookupJ (execStep ctErr cfg0 initState badStep).1.outputs
            (JValue.str "badTool")
          = some "Error executing tool badTool: boom"
      ∧ (execStep ctErr cfg0 initState badStep).1.msgs
          = initState.msgs ++ [⟨"tool", JValue.str "badTool",
              "Error executing tool badTool: boom"⟩]) :=
  ⟨c2_failing_step_recorded_and_continues.1 ctErr cfg0 initState badStep
      [goodStep] (by decide),
    c2_failing_step_recorded_and_continues.2.1 ctErr cfg0 initState
      [("name", JValue.str "badTool"), ("arguments", JValue.obj [])]
      (JValue.str "badTool") [] "Error executing tool badTool: boom"
      (by decide) (by decide) (by decide)⟩

/-!
## C4 - strictly sequential execution with placeholder resolution
-/

/-- The `name` value a plan step carries (used only to state the order of
invocations; a successful run guarantees the lookup succeeds). -/
def stepNameOf (j : JValue) : JValue :=
  match j with
  | JValue.obj f => (lookupStr f "name").getD JValue.null
  | _ => JValue.null

/-- C4: the executor processes steps strictly sequentially in plan order
(a run with no failure issues exactly one invocation per step, in plan
order), and per step resolves placeholders against the outputs
accumulated so far before invoking: in the concrete plan
`[toolA(), toolB(x = "\x7b\x7btoolA\x7d\x7d")]` with `toolA` returning
`"42"`, `toolB` is invoked with `x = "42"`. -/
theorem c4_sequential_with_resolution :
    (∀ (ct : JValue → List (String × JValue) → Except PyErr String)
        (cfg : QueryCfg) (st : ExecState) (steps : List JValue),
      (execPlan ct cfg st steps).2 = none →
      ((execPlan ct cfg st steps).1.calls).map Prod.fst
        = st.calls.map Prod.fst ++ steps.map stepNameOf) ∧
    (execPlan ctAB cfg0 initState [stepA, stepB]).1.calls
      = [(JValue.str "toolA", []),
         (JValue.str "toolB", [("x", JValue.str "42")])]
    ∧ (execPlan ctAB cfg0 initState [stepA, stepB]).2 = none := by
  refine ⟨?_, by decide, by decide⟩
  intro ct cfg st steps
  induction steps generalizing st with
  | nil =>
    intro _
    simp [execPlan_nil]
  | cons p ps ih =>
    intro h
    rcases hp : execStep ct cfg st p with ⟨sp, op⟩
    rcases op with _ | e0
    · have hplan : execPlan ct cfg st (p :: ps) = execPlan ct cfg sp ps :=
        execPlan_cons_ok ct cfg ps hp
      rw [hplan] at h ⊢
      obtain ⟨fields, toolName, kvs, text, hstep, hn, ha, hc, hres⟩ :=
        execStep_ok_inv ct cfg st p (by rw [hp])
      have hsp : sp = (execStep ct cfg st p).1 := by rw [hp]
      have hcalls : sp.calls = st.calls ++
          [(toolName, injectDefaults cfg toolName (resolveArgs st.outputs kvs))] := by
        rw [hsp, hres]
      have hname : stepNameOf p = toolName := by
        rw [hstep]
        simp [stepNameOf, hn]
      rw [ih sp h, hcalls]
      simp [hname]
    · have hplan : execPlan ct cfg st (p :: ps) = (sp, some e0) :=
        execPlan_cons_err ct cfg ps hp
      rw [hplan] at h
      simp at h

/-- Witness for C4's universally quantified part at a concrete plan. -/
theorem c4_sequential_with_resolution_witness :
    ((execPlan ctAB cfg0 initState [stepA, stepB]).1.calls).map Prod.fst
      = initState.calls.map Prod.fst ++ [stepA, stepB].map stepNameOf :=
  c4_sequential_with_resolution.1 ctAB cfg0 initState [stepA, stepB] (by decide)

/-!
## C9 - StepResults are keyed by tool name, last write wins
-/

/-- C9: after every successful step, the `tool_outputs` entry for that
step's tool name equals that step's output text (overwriting any prior
entry for the same name); in the concrete plan
`[toolA(i=1), toolA(i=2), toolB(x = "\x7b\x7btoolA\x7d\x7d")]` where the
two `toolA` invocations return `"first"` and `"second"`, the later
placeholder reference resolves to `"second"`. -/
theorem c9_last_write_wins :
    (∀ (ct : JValue → List (String × JValue) → Except PyErr String)
        (cfg : QueryCfg) (st : ExecState) (step : JValue),
      (execStep ct cfg st step).2 = none →
      ∃ toolName a text,
        (execStep ct cfg st step).1.calls = st.calls ++ [(toolName, a)]
        ∧ ct toolName a = Except.ok text
        ∧ lookupJ (execStep ct cfg st step).1.outputs toolName = some text) ∧
    (execPlan ct9 cfg0 initState [stepA1, stepA2, stepB]).1.calls
      = [(JValue.str "toolA", [("i", JValue.num 1)]),
         (JValue.str "toolA", [("i", JValue.num 2)]),
         (JValue.str "toolB", [("x", JValue.str "second")])]
    ∧ lookupJ (execPlan ct9 cfg0 initState [stepA1, stepA2, stepB]).1.outputs
        (JValue.str "toolA") = some "second" := by
  refine ⟨?_, by decide, by decide⟩
  intro ct cfg st step h
  obtain ⟨fields, toolName, kvs, text, hstep, hn, ha, hc, hres⟩ :=
    execStep_ok_inv ct cfg st step h
  refine ⟨toolName, injectDefaults cfg toolName (resolveArgs st.outputs kvs),
    text, ?_, hc, ?_⟩
  · rw [hres]
  · rw [hres]
    exact lookupJ_updateJ_self _ _ _

/-- Witness for C9's universally quantified part at a concrete step. -/
theorem c9_last_write_wins_witness :
    ∃ toolName a text,
      (execStep ctAB cfg0 initState stepA).1.calls
          = initState.calls ++ [(toolName, a)]
      ∧ ctAB toolName a = Except.ok text
      ∧ lookupJ (execStep ctAB cfg0 initState stepA).1.outputs toolName
          = some text :=
  c9_last_write_wins.1 ctAB cfg0 initState stepA (by decide)

/-- Witness for C7 at concrete inputs: a step omitting `filename` gets
`f.txt`; a step supplying `filename = "g.txt"` keeps it. -/
theorem c7_injected_defaults_witness :
    lookupStr [("q", JValue.str "v")] "filename" = none
    ∧ lookupStr (injectDefaults cfg0 (JValue.str "analyze_sentiment")
        [("q", JValue.str "v")]) "filename" = some (JValue.str "f.txt")
    ∧ lookupStr [("filename", JValue.str "g.txt")] "filename"
        = some (JValue.str "g.txt")
    ∧ lookupStr (injectDefaults cfg0 (JValue.str "analyze_sentiment")
        [("filename", JValue.str "g.txt")]) "filename"
        = some (JValue.str "g.txt") :=
  ⟨by decide,
    c7_injected_defaults.1 cfg0 [("q", JValue.str "v")] (by decide),
    by decide,
    c7_injected_defaults.2.1 cfg0 (JValue.str "analyze_sentiment")
      [("filename", JValue.str "g.txt")] (JValue.str "g.txt") (by decide)⟩

/-!
## C8 - the iterative chat loop
-/

/-- C8 counterexample: the scripted reply `tcUnknown` decodes to a
`\x7btool, arguments\x7d` JSON object, yet triggers NO tool invocation:
`process_llm_response` first checks the catalog and answers
`没有该工具：nope` (which keeps the loop going via a further model call,
with zero invocations), refuting the claim's "each reply that parses as a
tool-call object triggers one single-step tool invocation". -/
theorem c8_unknown_tool_counterexample :
    jsonLoadsL tcUnknown.toList
      = some (JValue.obj [("tool", JValue.str "nope"),
          ("arguments", JValue.obj [])])
    ∧ process_llm_response ["multiply"] ctM tcUnknown
        = (Except.ok "没有该工具：nope", [])
    ∧ chatTurn ["multiply"] ctM [tcUnknown, "plain text"]
        = Except.ok (some ("plain text", [])) :=
  ⟨by decide, by decide, by decide⟩

/-- C8 amended: for the scripted replies
`[tcJson, tcJson, "plain text"]` where `tcJson` is a tool-call object
naming a cataloged tool, the loop performs exactly two tool invocations
and terminates with `plain text` as the final answer; a tool-call object
naming an unknown tool instead yields a `没有该工具` message and a further
model call without any invocation, and the loop ends at the first reply
whose processed result equals the reply itself. -/
theorem c8_amended_scripted_run :
    chatTurn ["multiply"] ctM [tcJson, tcJson, "plain text"]
      = Except.ok (some ("plain text",
          [(JValue.str "multiply", tcArgs), (JValue.str "multiply", tcArgs)])) := by
  decide

/-!
## C10 - totality of the iterative reply handler (refuted and amended)
-/

end MCPSpec
